import Mathlib

/-!
Verification development for the at-backend session multiplexer.

This file gives a shallow embedding of the core of the repository:

* `src/agent.py` — `AgentSession`: the queue-fed input adapter
  (`_prompt_stream`), the agent driver (`_run_query`), and the session
  operations `start` / `send_message` / `get_output_stream` / `close`.
* `src/main.py` — `Session._listen` / `_agent_status_message` /
  `Session._broadcast`, the conversation registry (`get_session` and the
  registry part of `delete_chat`), the WebSocket `subscribe` handler, and
  `InMemoryChatStore.add_message`.

Asynchronous code is embedded as explicit state passing: a task's behaviour
between two suspension points is one atomic step, queues are lists, and the
`asyncio.Queue` contents observed by a loop are the list of items it dequeues.
-/

namespace AtBackend

/-! ## Input adapter (`AgentSession._prompt_stream`, src/agent.py lines 33–46)

The stream loop repeatedly checks `self._closed`, dequeues the next item from
`self._input_queue` (`None` is the close-sentinel), stops on the sentinel or a
set closed flag, and otherwise yields the text wrapped as a user turn.  We
model the run of the stream over the list of items it would dequeue. -/

/-- The dictionary yielded by `_stream` for one user text:
`{"type": "user", "message": {"role": "user", "content": content},
  "parent_tool_use_id": None, "session_id": ""}`. -/
structure PromptTurn where
  type : String
  role : String
  content : String
  parentToolUseId : Option String
  sessionId : String
deriving DecidableEq, Repr

/-- Wrap one submitted text as the user-role turn `_stream` yields. -/
def wrapUserTurn (content : String) : PromptTurn :=
  { type := "user", role := "user", content := content
    parentToolUseId := none, sessionId := "" }

/-- The turns yielded by `_prompt_stream`'s loop, given the closed flag and the
queue contents it dequeues in order (`none` is the close-sentinel). -/
def promptStream (closed : Bool) : List (Option String) → List PromptTurn
  | [] => []
  | none :: _ => []
  | some c :: rest =>
      if closed then [] else wrapUserTurn c :: promptStream closed rest

/-! ## Agent driver output events (`AgentSession._run_query`, lines 48–99) -/

/-- Events pushed by `_run_query` onto `self._output_queue` (the sentinel
`None` is modelled separately as `Option OutEvent`). -/
inductive OutEvent where
  | assistantMessage (content : String)
  | toolUse (toolName toolId toolInput : String)
  | result (success : Bool) (cost : Option Int) (durationMs : Int)
  | error (message : String)
deriving DecidableEq, Repr

/-! ## Session state (`AgentSession.__init__` plus the task object) -/

/-- State of one `AgentSession`: the two queues, the `_task` slot (we record
the identity of the created task as a number and its done/cancelled status in
separate fields, since `close()` mutates the task object, not the slot), the
`_closed` flag, and a counter of `asyncio.create_task` calls. -/
structure AgentState where
  inputQueue : List (Option String)
  outputQueue : List (Option OutEvent)
  task : Option Nat
  taskDone : Bool
  taskCancelled : Bool
  closed : Bool
  tasksCreated : Nat
deriving DecidableEq, Repr

/-- A fresh `AgentSession()`. -/
def initialAgent : AgentState :=
  { inputQueue := [], outputQueue := [], task := none, taskDone := false
    taskCancelled := false, closed := false, tasksCreated := 0 }

/-- Model of `start()` (lines 101–103): `if self._task is None: self._task =
asyncio.create_task(self._run_query())`. -/
def start (s : AgentState) : AgentState :=
  match s.task with
  | some _ => s
  | none => { s with task := some s.tasksCreated, tasksCreated := s.tasksCreated + 1 }

/-- Model of `send_message(content)` (lines 105–107): `self.start()` then
`self._input_queue.put_nowait(content)`. -/
def sendMessage (s : AgentState) (content : String) : AgentState :=
  let s' := start s
  { s' with inputQueue := s'.inputQueue ++ [some content] }

/-- The state effect of entering `get_output_stream()` (lines 109–115): it
calls `self.start()`; the read loop only consumes the output queue and never
touches the task. -/
def getOutputStream (s : AgentState) : AgentState :=
  start s

/-- Model of `close()` (lines 117–121): set `_closed`, `put_nowait(None)` on the input
queue, and cancel the task if one exists and is not done. -/
def closeA (s : AgentState) : AgentState :=
  { s with closed := true
           inputQueue := s.inputQueue ++ [none]
           taskCancelled :=
             if s.task.isSome && !s.taskDone then true else s.taskCancelled }

/-- The public operations of an `AgentSession`. -/
inductive AgentOp where
  | start
  | send (content : String)
  | getOutput
  | close
deriving DecidableEq, Repr

def applyAgentOp (s : AgentState) : AgentOp → AgentState
  | .start => start s
  | .send c => sendMessage s c
  | .getOutput => getOutputStream s
  | .close => closeA s

def applyAgentOps (ops : List AgentOp) (s : AgentState) : AgentState :=
  ops.foldl applyAgentOp s

/-- Submitting a sequence of texts via `send_message`, in order. -/
def submitAll (texts : List String) (s : AgentState) : AgentState :=
  texts.foldl sendMessage s

/-! ### Helper lemmas about the session operations -/

lemma start_inputQueue (s : AgentState) : (start s).inputQueue = s.inputQueue := by
  unfold start; cases s.task <;> rfl

lemma start_closed (s : AgentState) : (start s).closed = s.closed := by
  unfold start; cases s.task <;> rfl

lemma sendMessage_inputQueue (s : AgentState) (c : String) :
    (sendMessage s c).inputQueue = s.inputQueue ++ [some c] := by
  simp [sendMessage, start_inputQueue]

lemma sendMessage_closed (s : AgentState) (c : String) :
    (sendMessage s c).closed = s.closed := by
  simp [sendMessage, start_closed]

lemma submitAll_inputQueue (texts : List String) (s : AgentState) :
    (submitAll texts s).inputQueue = s.inputQueue ++ texts.map some := by
  induction texts generalizing s with
  | nil => simp [submitAll]
  | cons t ts ih =>
      simp only [submitAll, List.foldl_cons, List.map_cons]
      rw [show List.foldl sendMessage (sendMessage s t) ts = submitAll ts (sendMessage s t) from rfl,
        ih, sendMessage_inputQueue]
      simp

lemma submitAll_closed (texts : List String) (s : AgentState) :
    (submitAll texts s).closed = s.closed := by
  induction texts generalizing s with
  | nil => rfl
  | cons t ts ih =>
      simp only [submitAll, List.foldl_cons]
      rw [show List.foldl sendMessage (sendMessage s t) ts = submitAll ts (sendMessage s t) from rfl,
        ih, sendMessage_closed]

lemma promptStream_map_some (texts : List String) (tail : List (Option String)) :
    promptStream false (texts.map some ++ tail) =
      texts.map wrapUserTurn ++ promptStream false tail := by
  induction texts with
  | nil => simp
  | cons t ts ih => simp [promptStream, ih]

/-- C1: For every sequence of texts submitted to a session via `send_message`,
the input queue holds exactly those texts in submission order, and the prompt
stream consumed by the agent call yields exactly those texts, each wrapped as
a user-role turn, in FIFO order — none duplicated, none dropped — before it
observes the close-sentinel. -/
theorem sendMessage_prompt_stream_fifo (texts : List String) :
    (submitAll texts initialAgent).inputQueue = texts.map some ∧
    promptStream (submitAll texts initialAgent).closed
        ((submitAll texts initialAgent).inputQueue ++ [none]) =
      texts.map wrapUserTurn := by
  have hq := submitAll_inputQueue texts initialAgent
  have hc := submitAll_closed texts initialAgent
  have hq' : (submitAll texts initialAgent).inputQueue = texts.map some := by
    simpa [initialAgent] using hq
  have hc' : (submitAll texts initialAgent).closed = false := by
    simpa [initialAgent] using hc
  refine ⟨hq', ?_⟩
  rw [hc', hq']
  simpa [promptStream] using promptStream_map_some texts [none]

/-! ### C2: `start()` is idempotent, at most one task per session -/

lemma applyAgentOp_task_of_isSome (s : AgentState) (op : AgentOp)
    (h : s.task.isSome) :
    (applyAgentOp s op).task = s.task ∧
    (applyAgentOp s op).tasksCreated = s.tasksCreated := by
  obtain ⟨t, ht⟩ := Option.isSome_iff_exists.mp h
  cases op <;> simp [applyAgentOp, start, sendMessage, getOutputStream, closeA, ht]

lemma applyAgentOps_task_of_isSome (ops : List AgentOp) (s : AgentState)
    (h : s.task.isSome) :
    (applyAgentOps ops s).task = s.task ∧
    (applyAgentOps ops s).tasksCreated = s.tasksCreated := by
  induction ops generalizing s with
  | nil => exact ⟨rfl, rfl⟩
  | cons op ops ih =>
      obtain ⟨h1, h2⟩ := applyAgentOp_task_of_isSome s op h
      have h' : (applyAgentOp s op).task.isSome := by rw [h1]; exact h
      obtain ⟨ih1, ih2⟩ := ih (applyAgentOp s op) h'
      exact ⟨ih1.trans h1, ih2.trans h2⟩

lemma start_task_isSome (s : AgentState) : (start s).task.isSome := by
  unfold start; cases h : s.task <;> simp [h]

lemma applyAgentOps_tasksCreated_le (ops : List AgentOp) (s : AgentState) :
    (applyAgentOps ops s).tasksCreated ≤
      s.tasksCreated + (if s.task.isSome then 0 else 1) := by
  induction ops generalizing s with
  | nil => simp [applyAgentOps]
  | cons op ops ih =>
      show (applyAgentOps ops (applyAgentOp s op)).tasksCreated ≤ _
      rcases ht : s.task with _ | t
      · -- no task yet: a single op creates at most one
        cases op with
        | close =>
            have := ih (closeA s)
            simp only [applyAgentOp]
            simpa [closeA, ht] using this
        | start =>
            have h' : (start s).task.isSome := start_task_isSome s
            have := (applyAgentOps_task_of_isSome ops (start s) h').2
            simp only [applyAgentOp, this]
            simp [start, ht]
        | send c =>
            have h' : (sendMessage s c).task.isSome := by
              simp [sendMessage, start_task_isSome]
            have := (applyAgentOps_task_of_isSome ops (sendMessage s c) h').2
            simp only [applyAgentOp, this]
            simp [sendMessage, start, ht]
        | getOutput =>
            have h' : (getOutputStream s).task.isSome := start_task_isSome s
            have := (applyAgentOps_task_of_isSome ops (getOutputStream s) h').2
            simp only [applyAgentOp, this]
            simp [getOutputStream, start, ht]
      · have h : s.task.isSome := by simp [ht]
        obtain ⟨h1, h2⟩ := applyAgentOp_task_of_isSome s op h
        have h' : (applyAgentOp s op).task.isSome := by rw [h1]; exact h
        obtain ⟨ih1, ih2⟩ := applyAgentOps_task_of_isSome ops (applyAgentOp s op) h'
        simp [ih2, h2, h]

/-- C2: `start()` is idempotent; once started (directly, or via `send_message`
or `get_output_stream`), every later operation leaves the session's `_task`
slot and the number of created tasks unchanged; and from a fresh session any
sequence of operations creates at most one agent-call task, so at most one
agent call per conversation is ever running. -/
theorem start_idempotent_single_task (s : AgentState) (ops : List AgentOp) :
    start (start s) = start s ∧
    (applyAgentOps ops (start s)).task = (start s).task ∧
    (applyAgentOps ops (start s)).tasksCreated = (start s).tasksCreated ∧
    (applyAgentOps ops initialAgent).tasksCreated ≤ 1 := by
  refine ⟨?_, ?_, ?_, ?_⟩
  · generalize hs : start s = s'
    have h : s'.task.isSome := hs ▸ start_task_isSome s
    obtain ⟨t, ht⟩ := Option.isSome_iff_exists.mp h
    simp [start, ht]
  · exact (applyAgentOps_task_of_isSome ops (start s) (start_task_isSome s)).1
  · exact (applyAgentOps_task_of_isSome ops (start s) (start_task_isSome s)).2
  · simpa [initialAgent] using applyAgentOps_tasksCreated_le ops initialAgent

/-! ## The driver loop `_run_query` (src/agent.py lines 48–99)

The loop iterates over the messages yielded by the SDK `query(...)` call,
classifying each into output events (`assistant_message` per text block,
`tool_use` per tool-use block, `result` for a `ResultMessage`; anything else
is ignored).  The run ends either normally (stream exhausted), by
`asyncio.CancelledError`, or by another exception; the handlers and the
`finally` block decide what is pushed afterwards.  We model a run by the list
of messages the loop processed and how it ended. -/

/-- A content block of an `AssistantMessage` (`TextBlock`, `ToolUseBlock`, or
some other block type the loop ignores). -/
inductive ContentBlock where
  | text (t : String)
  | toolUseBlock (name id input : String)
  | otherBlock
deriving DecidableEq, Repr

/-- A message yielded by the SDK `query(...)` stream (`AssistantMessage`,
`ResultMessage`, or some other message type the loop ignores). -/
inductive SdkMessage where
  | assistant (blocks : List ContentBlock)
  | resultMsg (isError : Bool) (cost : Option Int) (durationMs : Int)
  | otherMsg
deriving DecidableEq, Repr

/-- Events pushed for one content block of an `AssistantMessage`
(lines 70–83). -/
def classifyBlock : ContentBlock → List OutEvent
  | .text t => [.assistantMessage t]
  | .toolUseBlock n i inp => [.toolUse n i inp]
  | .otherBlock => []

/-- Events pushed for one yielded message (lines 69–92): `success = not
is_error` for a `ResultMessage`; unknown message kinds are dropped. -/
def classifyMsg : SdkMessage → List OutEvent
  | .assistant bs => bs.flatMap classifyBlock
  | .resultMsg e c d => [.result (!e) c d]
  | .otherMsg => []

/-- How the `async for` loop of `_run_query` ended. -/
inductive QueryEnd where
  | normal
  | cancelled
  | errored (message : String)
deriving DecidableEq, Repr

/-- Everything `_run_query` pushes onto the output queue, in order
(`none` is the end-of-stream sentinel pushed by the `finally` block):
the classified events for the messages the loop processed, then — per the
exception handlers on lines 93–97 — nothing for `CancelledError`, an
`error{message}` event for any other exception unless `self._closed` was
already set, and finally the sentinel (line 99).

`closedAtEnd` is the value of `self._closed` observed by the `except` handler;
`msgs` are the messages the loop received (and processed) before it ended. -/
def runQueryOutputs (closedAtEnd : Bool) (msgs : List SdkMessage)
    (ending : QueryEnd) : List (Option OutEvent) :=
  (msgs.flatMap classifyMsg).map some ++
    (match ending with
     | .normal => []
     | .cancelled => []
     | .errored m => if closedAtEnd then [] else [some (.error m)]) ++
    [none]

/-- Is this output-queue entry an `error` event? -/
def isErrorEntry : Option OutEvent → Bool
  | some (.error _) => true
  | _ => false

/-- The `error` events among the pushed outputs, in order. -/
def errorEvents (l : List (Option OutEvent)) : List OutEvent :=
  l.filterMap fun o =>
    match o with
    | some (.error m) => some (.error m)
    | _ => none

lemma errorEvents_append (l₁ l₂ : List (Option OutEvent)) :
    errorEvents (l₁ ++ l₂) = errorEvents l₁ ++ errorEvents l₂ := by
  simp [errorEvents]

lemma errorEvents_classifyBlock (b : ContentBlock) :
    errorEvents ((classifyBlock b).map some) = [] := by
  cases b <;> rfl

lemma errorEvents_classifyMsg (m : SdkMessage) :
    errorEvents ((classifyMsg m).map some) = [] := by
  cases m with
  | assistant bs =>
      induction bs with
      | nil => rfl
      | cons b bs ih =>
          simp only [classifyMsg, List.flatMap_cons, List.map_append,
            errorEvents_append]
          rw [errorEvents_classifyBlock]
          simpa [classifyMsg] using ih
  | resultMsg e c d => rfl
  | otherMsg => rfl

lemma errorEvents_loop (msgs : List SdkMessage) :
    errorEvents ((msgs.flatMap classifyMsg).map some) = [] := by
  induction msgs with
  | nil => rfl
  | cons m ms ih =>
      simp only [List.flatMap_cons, List.map_append, errorEvents_append,
        errorEvents_classifyMsg m, List.nil_append]
      exact ih

lemma count_none_loop (msgs : List SdkMessage) :
    ((msgs.flatMap classifyMsg).map some).count (none : Option OutEvent) = 0 := by
  rw [List.count_eq_zero]
  intro h
  obtain ⟨e, _, he⟩ := List.mem_map.mp h
  exact Option.noConfusion he

/-- C3: Every run of the driver loop — natural completion, cancellation, or
exception — pushes exactly one end-of-stream sentinel onto the output
channel, as the last entry, after the loop ends; and the stream carries at
most one terminal outcome: at most one `error` event overall, and none at all
when the run completed naturally or was cancelled. -/
theorem run_query_single_sentinel (closedAtEnd : Bool)
    (msgs : List SdkMessage) (ending : QueryEnd) :
    (runQueryOutputs closedAtEnd msgs ending).count none = 1 ∧
    (runQueryOutputs closedAtEnd msgs ending).getLast? = some none ∧
    (errorEvents (runQueryOutputs closedAtEnd msgs ending)).length =
      (match ending with
       | .errored _ => if closedAtEnd then 0 else 1
       | _ => 0) := by
  refine ⟨?_, ?_, ?_⟩
  · unfold runQueryOutputs
    rw [List.count_append, List.count_append, count_none_loop]
    cases ending <;> cases closedAtEnd <;> simp [List.count_cons]
  · unfold runQueryOutputs
    exact List.getLast?_concat _
  · unfold runQueryOutputs
    rw [errorEvents_append, errorEvents_append, errorEvents_loop]
    cases ending <;> cases closedAtEnd <;> simp [errorEvents]

/-- C7: For every run of the agent call, the emitted `error` events are
exactly: none if the loop ended by cancellation; none if it ended normally;
a single `error{message}` event carrying the exception's message if it ended
with any other exception while the session was not closed; and none (the
error is suppressed) if it ended with such an exception while the session was
already closed. -/
theorem run_query_error_semantics (closedAtEnd : Bool)
    (msgs : List SdkMessage) (ending : QueryEnd) :
    errorEvents (runQueryOutputs closedAtEnd msgs ending) =
      (match ending with
       | .normal => []
       | .cancelled => []
       | .errored m => if closedAtEnd then [] else [.error m]) := by
  unfold runQueryOutputs
  rw [errorEvents_append, errorEvents_append, errorEvents_loop]
  cases ending <;> cases closedAtEnd <;> simp [errorEvents]

/-! ### C4: `close()` enqueues a sentinel on every call

`close()` (lines 117–121) runs `self._input_queue.put_nowait(None)`
unconditionally — there is no guard on `self._closed` — so each call adds one
more sentinel to the input queue.  All other state (the closed flag, the task
cancellation) is the same after N calls as after one, and the prompt stream
stops at the first sentinel, so the extras are never consumed. -/

lemma promptStream_of_closed (q : List (Option String)) :
    promptStream true q = [] := by
  cases q with
  | nil => rfl
  | cons h t => cases h <;> simp [promptStream]

lemma closeA_closed (s : AgentState) : (closeA s).closed = true := rfl

lemma closeA_closeA (s : AgentState) :
    closeA (closeA s) =
      { closeA s with inputQueue := (closeA s).inputQueue ++ [none] } := by
  obtain ⟨iq, oq, tk, td, tc, cl, n⟩ := s
  simp only [closeA]
  cases tk <;> cases td <;> simp

/-- C4 counterexample: on a fresh session, calling `close()` twice does not
produce the same end state as calling it once — the second call enqueues an
additional close-sentinel into the input queue. -/
theorem close_twice_not_close_once :
    closeA (closeA initialAgent) ≠ closeA initialAgent ∧
    (closeA (closeA initialAgent)).inputQueue = [none, none] ∧
    (closeA initialAgent).inputQueue = [none] := by
  refine ⟨?_, rfl, rfl⟩
  intro h
  have := congrArg AgentState.inputQueue h
  simp [closeA, initialAgent] at this

/-- C4 amended: `close()` is idempotent in every observable respect except the
input queue — after N ≥ 1 calls the state equals the state after one call
with N − 1 extra close-sentinels appended to the input queue, and those extra
sentinels are unobservable to the prompt stream, which ends at the first. -/
theorem close_observably_idempotent (s : AgentState) (n : Nat) :
    closeA^[n + 1] s =
      { closeA s with
          inputQueue := (closeA s).inputQueue ++ List.replicate n none } ∧
    promptStream (closeA^[n + 1] s).closed (closeA^[n + 1] s).inputQueue =
      promptStream (closeA s).closed (closeA s).inputQueue := by
  have key : ∀ m : Nat, closeA^[m + 1] s =
      { closeA s with
          inputQueue := (closeA s).inputQueue ++ List.replicate m none } := by
    intro m
    induction m with
    | zero => simp
    | succ k ih =>
        rw [Function.iterate_succ_apply', ih]
        obtain ⟨iq, oq, tk, td, tc, cl, cnt⟩ := s
        simp only [closeA, List.replicate_succ']
        cases tk <;> cases td <;> simp
  refine ⟨key n, ?_⟩
  rw [key n]
  have hc : ({ closeA s with
      inputQueue := (closeA s).inputQueue ++ List.replicate n none } :
        AgentState).closed = true := closeA_closed s
  rw [hc, promptStream_of_closed, promptStream_of_closed]

/-! ## The host drain loop (`Session._listen`, src/main.py lines 183–204)

For each event read from the agent's output stream the loop broadcasts, in
order: first a synthesized `agent_status` payload when the event is a
`tool_use` (its message from `_agent_status_message`), then the event itself
wrapped with the chat id (`Session._wrap`). -/

/-- The static tool-name → phrase table `AGENT_STATUS_BY_TOOL`
(src/main.py lines 156–165), as the lookup `dict.get` performs. -/
def agentStatusLookup : String → Option String
  | "WebSearch" => some "Searching the web"
  | "WebFetch" => some "Fetching a page"
  | "Read" => some "Reading a file"
  | "Write" => some "Writing a file"
  | "Edit" => some "Editing a file"
  | "Bash" => some "Running a command"
  | "Glob" => some "Searching for files"
  | "Grep" => some "Searching in files"
  | _ => none

/-- Model of `_agent_status_message(tool_name)` (lines 168–169):
`AGENT_STATUS_BY_TOOL.get(tool_name, f"Using {tool_name}")`. -/
def agentStatusMessage (toolName : String) : String :=
  match agentStatusLookup toolName with
  | some m => m
  | none => "Using " ++ toolName

/-- A payload broadcast by `_listen`: either a synthesized `agent_status`
event, or an output event wrapped with the chat id by `_wrap`. -/
inductive Payload where
  | agentStatus (message chatId : String)
  | wrapped (ev : OutEvent) (chatId : String)
deriving DecidableEq, Repr

/-- Is the input event a `tool_use`? (`msg.get("type") == "tool_use"`). -/
def isToolUseEv : OutEvent → Bool
  | .toolUse _ _ _ => true
  | _ => false

def isToolUseP : Payload → Bool
  | .wrapped (.toolUse _ _ _) _ => true
  | _ => false

def isStatusP : Payload → Bool
  | .agentStatus _ _ => true
  | _ => false

/-- The broadcasts the body of `_listen`'s loop performs for one event
(lines 188–198): for a `tool_use`, first the `agent_status` whose message is
`_agent_status_message(msg.get("toolName", ""))`, then the wrapped event;
for every other event kind, only the wrapped event. -/
def listenStep (chatId : String) : OutEvent → List Payload
  | .toolUse n i inp =>
      [.agentStatus (agentStatusMessage n) chatId, .wrapped (.toolUse n i inp) chatId]
  | e => [.wrapped e chatId]

/-- All broadcasts of the drain loop over the events it reads, in order. -/
def listenOut (chatId : String) (evs : List OutEvent) : List Payload :=
  evs.flatMap (listenStep chatId)

/-- The broadcast sequence of the drain loop decomposes into single payloads
that are neither `agent_status` nor `tool_use`, and adjacent pairs of an
`agent_status` — whose message comes from the static lookup via
`agentStatusMessage` — immediately followed by the `tool_use` it was
synthesized for, on the same chat id. -/
inductive StatusToolShape : List Payload → Prop where
  | nil : StatusToolShape []
  | plain (p : Payload) (l : List Payload)
      (h1 : isToolUseP p = false) (h2 : isStatusP p = false)
      (ht : StatusToolShape l) : StatusToolShape (p :: l)
  | pair (n i inp c : String) (l : List Payload) (ht : StatusToolShape l) :
      StatusToolShape
        (.agentStatus (agentStatusMessage n) c ::
          .wrapped (.toolUse n i inp) c :: l)

/-- C5: In the drain loop, every `tool_use` event is immediately preceded by
exactly one synthesized `agent_status` whose message is obtained from the
static tool-name lookup (with the `"Using <toolName>"` fallback), the pair is
never reordered, and no `agent_status` is synthesized for any other event
kind — the number of `agent_status` broadcasts equals the number of
`tool_use` events read. -/
theorem listen_status_precedes_tool_use (chatId : String) (evs : List OutEvent) :
    StatusToolShape (listenOut chatId evs) ∧
    ((listenOut chatId evs).filter isStatusP).length =
      (evs.filter isToolUseEv).length := by
  induction evs with
  | nil => exact ⟨.nil, rfl⟩
  | cons e es ih =>
      obtain ⟨ihs, ihc⟩ := ih
      constructor
      · show StatusToolShape (listenStep chatId e ++ listenOut chatId es)
        cases e with
        | toolUse n i inp => exact .pair n i inp chatId _ ihs
        | assistantMessage t => exact .plain _ _ rfl rfl ihs
        | result s c d => exact .plain _ _ rfl rfl ihs
        | error m => exact .plain _ _ rfl rfl ihs
      · show ((listenStep chatId e ++ listenOut chatId es).filter isStatusP).length = _
        cases e <;>
          simp [listenStep, isStatusP, isToolUseEv, List.filter_append, ihc]

/-! ## Broadcast (`Session._broadcast`, src/main.py lines 214–222)

The loop attempts `ws.send_json(payload)` for every handle in
`self._subscribers`, collecting into `dead` each handle whose send raised;
afterwards every handle in `dead` is discarded from the set.  Subscriber
handles are modelled as numbers and the set as the list of handles in
iteration order; `fails w = true` means delivery of this payload to `w`
raises. -/

/-- The delivery loop: returns (handles delivered to, the `dead` list), both
in iteration order. -/
def broadcastAttempt (fails : Nat → Bool) : List Nat → List Nat × List Nat
  | [] => ([], [])
  | ws :: rest =>
      let r := broadcastAttempt fails rest
      if fails ws then (r.1, ws :: r.2) else (ws :: r.1, r.2)

/-- Model of `_broadcast`: run the delivery loop, then discard every dead handle from
the subscriber set.  Returns (handles delivered to, subscriber set after). -/
def broadcast (subs : List Nat) (fails : Nat → Bool) : List Nat × List Nat :=
  let r := broadcastAttempt fails subs
  (r.1, subs.filter fun w => !(r.2.contains w))

lemma broadcastAttempt_fst (fails : Nat → Bool) (subs : List Nat) :
    (broadcastAttempt fails subs).1 = subs.filter fun w => !fails w := by
  induction subs with
  | nil => rfl
  | cons ws rest ih =>
      simp only [broadcastAttempt]
      cases h : fails ws <;> simp [h, ih]

lemma broadcastAttempt_snd (fails : Nat → Bool) (subs : List Nat) :
    (broadcastAttempt fails subs).2 = subs.filter fails := by
  induction subs with
  | nil => rfl
  | cons ws rest ih =>
      simp only [broadcastAttempt]
      cases h : fails ws <;> simp [h, ih]

/-- C6: For every broadcast, delivery is attempted to every currently
registered subscriber — each subscriber either receives the payload or lands
in the dead list, and one failure never prevents delivery to the rest: the
delivered handles are exactly the non-failing subscribers in order, the dead
handles exactly the failing ones (none retried), and the set afterwards
equals the prior set minus exactly the failed subscribers. -/
theorem broadcast_removes_only_failed (subs : List Nat) (fails : Nat → Bool) :
    (broadcast subs fails).1 = (subs.filter fun w => !fails w) ∧
    (broadcastAttempt fails subs).2 = subs.filter fails ∧
    (broadcast subs fails).2 = (subs.filter fun w => !fails w) ∧
    ∀ w, w ∈ subs ↔
      w ∈ (broadcast subs fails).1 ∨ w ∈ (broadcastAttempt fails subs).2 := by
  refine ⟨broadcastAttempt_fst fails subs, broadcastAttempt_snd fails subs, ?_, ?_⟩
  · show (subs.filter fun w => !((broadcastAttempt fails subs).2.contains w)) = _
    rw [broadcastAttempt_snd]
    apply List.filter_congr
    intro w hw
    cases h : fails w <;>
      simp [List.elem_eq_mem, List.mem_filter, hw, h, List.contains]
  · intro w
    simp only [broadcast]
    rw [broadcastAttempt_fst, broadcastAttempt_snd]
    constructor
    · intro hw
      cases h : fails w
      · exact Or.inl (List.mem_filter.mpr ⟨hw, by simp [h]⟩)
      · exact Or.inr (List.mem_filter.mpr ⟨hw, h⟩)
    · rintro (hw | hw) <;> exact (List.mem_filter.mp hw).1

/-! ## The subscribe handler vs. the drain loop (src/main.py lines 315–321)

On a `subscribe` frame the handler runs
`session.subscribe(websocket)` (adds the connection to the subscriber set),
then `messages = await chat_store.get_messages(chat_id)`, then
`await websocket.send_json({type: history, ...})`.  Concurrently the drain
loop (`_listen` → `_broadcast`) may deliver a live event to every currently
subscribed connection.

Under asyncio a task runs atomically between suspension points, and the
messages enqueued to one connection are delivered in enqueue order.
`InMemoryChatStore.get_messages` contains no `await`, so awaiting it does not
suspend and subscribe/fetch/send-history is one atomic block; the PostgreSQL
store's `get_messages` performs network I/O, so the handler suspends between
subscribing and sending the history.  We model the two tasks as step
functions over a shared state, an arbitrary scheduler choosing which task
runs each atomic block, parameterised by whether the history fetch suspends
(`fetchSuspends`). -/

/-- A message delivered to the subscribing connection: the history snapshot,
or a live broadcast event of the conversation. -/
inductive WsMsg where
  | history
  | live
deriving DecidableEq, Repr

/-- Program counter of the subscribe handler. -/
inductive HandlerPc where
  | atSubscribe
  | fetchSuspended
  | handlerDone
deriving DecidableEq, Repr

/-- Shared state: whether our connection is in the session's subscriber set,
the handler's progress, whether the drain loop already broadcast its pending
live event, and the ordered list of messages delivered to our connection. -/
structure SubscribeRace where
  subscribed : Bool
  hpc : HandlerPc
  drained : Bool
  delivered : List WsMsg
deriving DecidableEq, Repr

def initRace : SubscribeRace :=
  { subscribed := false, hpc := .atSubscribe, drained := false, delivered := [] }

/-- Which task the scheduler runs next. -/
inductive TaskChoice where
  | handler
  | drain
deriving DecidableEq, Repr

/-- One atomic block of the chosen task.  The handler at `atSubscribe` adds
the connection to the subscriber set and starts the history fetch; if the
fetch suspends it yields there, otherwise it sends the history snapshot in
the same block.  A suspended handler resumes by sending the history.  The
drain loop broadcasts its one pending live event to the current subscriber
set. -/
def raceStep (fetchSuspends : Bool) (st : SubscribeRace) :
    TaskChoice → SubscribeRace
  | .handler =>
      match st.hpc with
      | .atSubscribe =>
          if fetchSuspends then
            { st with subscribed := true, hpc := .fetchSuspended }
          else
            { st with subscribed := true, hpc := .handlerDone
                      delivered := st.delivered ++ [.history] }
      | .fetchSuspended =>
          { st with hpc := .handlerDone, delivered := st.delivered ++ [.history] }
      | .handlerDone => st
  | .drain =>
      if st.drained then st
      else
        { st with drained := true
                  delivered :=
                    if st.subscribed then st.delivered ++ [.live]
                    else st.delivered }

/-- Run the two tasks under a scheduler. -/
def raceRun (fetchSuspends : Bool) (sched : List TaskChoice) : SubscribeRace :=
  sched.foldl (raceStep fetchSuspends) initRace

/-- Does the history snapshot precede every live event delivered to the
connection?  (Vacuously true when no live event was delivered.) -/
def historyFirst : List WsMsg → Bool
  | [] => true
  | .history :: _ => true
  | .live :: _ => false

/-- The states reachable when the history fetch does not suspend. -/
def raceReachable : List SubscribeRace :=
  [ initRace,
    { subscribed := false, hpc := .atSubscribe, drained := true, delivered := [] },
    { subscribed := true, hpc := .handlerDone, drained := false,
      delivered := [.history] },
    { subscribed := true, hpc := .handlerDone, drained := true,
      delivered := [.history, .live] },
    { subscribed := true, hpc := .handlerDone, drained := true,
      delivered := [.history] } ]

lemma raceReachable_closed (st : SubscribeRace) (c : TaskChoice)
    (h : st ∈ raceReachable) : raceStep false st c ∈ raceReachable := by
  fin_cases h <;> cases c <;> simp [raceStep, raceReachable, initRace]

lemma raceRun_mem_reachable (sched : List TaskChoice) :
    raceRun false sched ∈ raceReachable := by
  suffices h : ∀ st, st ∈ raceReachable →
      sched.foldl (raceStep false) st ∈ raceReachable by
    exact h initRace (by simp [raceReachable])
  induction sched with
  | nil => intro st h; exact h
  | cons c cs ih =>
      intro st h
      exact ih _ (raceReachable_closed st c h)

/-- C8 counterexample: with a history fetch that suspends (the PostgreSQL
store's `get_messages`), the schedule "handler subscribes and starts the
fetch; drain loop broadcasts; handler resumes and sends history" delivers a
live broadcast event of the conversation to the subscribing connection
strictly before the history snapshot. -/
theorem subscribe_history_race :
    (raceRun true [.handler, .drain, .handler]).delivered =
        [WsMsg.live, WsMsg.history] ∧
    historyFirst (raceRun true [.handler, .drain, .handler]).delivered = false := by
  constructor <;> rfl

/-- C8 amended: when the history fetch does not suspend (the in-memory
store's `get_messages` contains no await), the subscribe handler's
subscription, history fetch and history send form one atomic block, and under
every schedule the history snapshot is sent to the connection before any live
broadcast event of the conversation is delivered to it.  When the fetch
suspends, the connection is subscribed before the suspension, so a live event
may arrive first. -/
theorem subscribe_history_before_live (sched : List TaskChoice) :
    historyFirst (raceRun false sched).delivered = true := by
  have h := raceRun_mem_reachable sched
  generalize raceRun false sched = st at h ⊢
  fin_cases h <;> rfl

/-! ## The conversation registry (src/main.py lines 247–253 and 286–293)

`sessions` is a dict from chat id to `Session`; `get_session` creates a
`Session(chat_id)` on first access and returns the stored one thereafter.
The registry part of `delete_chat` (lines 290–292, reached when the store
deletion succeeded) closes the session for the id, if present, and deletes it
from the dict.  We model the dict as an association list and record each
`Session`'s identity as a creation number, so "the same instance" is
expressible. -/

/-- A `Session` as the registry sees it: its creation identity and whether
`Session.close()` has been called on it. -/
structure SessionInst where
  sid : Nat
  sessionClosed : Bool
deriving DecidableEq, Repr

/-- The process-wide registry: the `sessions` dict plus a counter supplying
fresh instance identities. -/
structure Registry where
  sessions : List (String × SessionInst)
  next : Nat
deriving DecidableEq, Repr

def emptyRegistry : Registry := { sessions := [], next := 0 }

/-- Dict lookup `sessions.get(chat_id)` / `chat_id in sessions`. -/
def lookupReg (r : Registry) (id : String) : Option SessionInst :=
  (r.sessions.find? fun p => p.1 == id).map Prod.snd

/-- Model of `get_session(chat_id)` (lines 250–253): create a `Session(chat_id)` and
store it if the id is absent, then return the stored session. -/
def getSession (r : Registry) (id : String) : SessionInst × Registry :=
  match lookupReg r id with
  | some s => (s, r)
  | none =>
      let s : SessionInst := { sid := r.next, sessionClosed := false }
      (s, { sessions := (id, s) :: r.sessions, next := r.next + 1 })

/-- The effect of `Session.close()` as observed through the registry. -/
def closeSession (s : SessionInst) : SessionInst :=
  { s with sessionClosed := true }

/-- The registry part of `delete_chat` (lines 290–292): if the id is present,
close its session and delete the entry.  Returns the closed session (if any)
and the new registry. -/
def removeSession (r : Registry) (id : String) :
    Option SessionInst × Registry :=
  match lookupReg r id with
  | some s =>
      (some (closeSession s),
       { r with sessions := r.sessions.filter fun p => !(p.1 == id) })
  | none => (none, r)

/-- Every stored session's identity is below the freshness counter (holds for
every registry grown from `emptyRegistry` by these operations). -/
def wfReg (r : Registry) : Bool :=
  r.sessions.all fun p => p.2.sid < r.next

lemma lookupReg_getSession (r : Registry) (id : String) :
    lookupReg (getSession r id).2 id = some (getSession r id).1 := by
  unfold getSession
  cases h : lookupReg r id with
  | some s => simp [h]
  | none => simp [lookupReg]

lemma lookupReg_removeSession (r : Registry) (id : String) :
    lookupReg (removeSession r id).2 id = none := by
  unfold removeSession
  cases h : lookupReg r id with
  | none => simp [h]
  | some s =>
      have hf : (r.sessions.filter fun p => !(p.1 == id)).find?
          (fun p => p.1 == id) = none := by
        rw [List.find?_eq_none]
        intro p hp
        have := (List.mem_filter.mp hp).2
        simpa using this
      simp [lookupReg, hf]

lemma removeSession_next (r : Registry) (id : String) :
    (removeSession r id).2.next = r.next := by
  unfold removeSession
  cases h : lookupReg r id <;> rfl

lemma getSession_of_lookup_some (r : Registry) (id : String) (s : SessionInst)
    (h : lookupReg r id = some s) : getSession r id = (s, r) := by
  unfold getSession; rw [h]

lemma getSession_of_lookup_none (r : Registry) (id : String)
    (h : lookupReg r id = none) :
    getSession r id =
      ({ sid := r.next, sessionClosed := false },
       { sessions := (id, { sid := r.next, sessionClosed := false }) :: r.sessions,
         next := r.next + 1 }) := by
  unfold getSession; rw [h]

lemma removeSession_of_lookup_some (r : Registry) (id : String) (s : SessionInst)
    (h : lookupReg r id = some s) :
    (removeSession r id).1 = some (closeSession s) := by
  unfold removeSession; rw [h]

lemma getSession_sid_lt (r : Registry) (id : String) (hwf : wfReg r = true) :
    (getSession r id).1.sid < (getSession r id).2.next := by
  cases h : lookupReg r id with
  | some s =>
      rw [getSession_of_lookup_some r id s h]
      obtain ⟨a, hfind⟩ : ∃ a,
          (r.sessions.find? fun p => p.1 == id) = some (a, s) := by
        simpa [lookupReg] using h
      have hmem := List.mem_of_find?_eq_some hfind
      have hall := List.all_eq_true.mp hwf (a, s) hmem
      simpa using hall
  | none =>
      rw [getSession_of_lookup_none r id h]
      simp

/-- C9: `get_session(id)` creates a new `Session` on the first access and
returns that same instance (and an unchanged registry) on every later access;
the registry part of `delete_chat` closes the session for the id if one is
present and removes the entry, so that a later `get_session(id)` yields a
fresh `Session`, distinct from the removed one. -/
theorem registry_get_create_remove (r : Registry) (id : String)
    (hwf : wfReg r = true) :
    (lookupReg r id = none →
      (getSession r id).1 = { sid := r.next, sessionClosed := false }) ∧
    getSession (getSession r id).2 id = ((getSession r id).1, (getSession r id).2) ∧
    (removeSession (getSession r id).2 id).1 =
      some (closeSession (getSession r id).1) ∧
    lookupReg (removeSession (getSession r id).2 id).2 id = none ∧
    (getSession (removeSession (getSession r id).2 id).2 id).1.sid ≠
      (getSession r id).1.sid := by
  refine ⟨?_, ?_, ?_, lookupReg_removeSession _ id, ?_⟩
  · intro h
    rw [getSession_of_lookup_none r id h]
  · exact getSession_of_lookup_some _ id _ (lookupReg_getSession r id)
  · exact removeSession_of_lookup_some _ id _ (lookupReg_getSession r id)
  · rw [getSession_of_lookup_none _ id (lookupReg_removeSession _ id)]
    have hlt : (getSession r id).1.sid < (removeSession (getSession r id).2 id).2.next := by
      rw [removeSession_next]
      exact getSession_sid_lt r id hwf
    exact ne_of_gt hlt

/-- Witness for C9: the registry contract holds at the empty registry and a
concrete conversation id. -/
theorem registry_get_create_remove_witness :
    wfReg emptyRegistry = true ∧
    (getSession (removeSession (getSession emptyRegistry "c1").2 "c1").2 "c1").1.sid ≠
      (getSession emptyRegistry "c1").1.sid :=
  ⟨rfl, (registry_get_create_remove emptyRegistry "c1" rfl).2.2.2.2⟩

/-! ## The chat store (`InMemoryChatStore.add_message`, src/main.py
lines 129–146; `PostgresChatStore.add_message`, src/db.py lines 131–168,
implements the identical title rule in SQL)

`add_message` raises if the chat id has no message list, appends the new
message, and — when the chat record exists — sets `updated_at` and, if the
title is `"New Chat"` and the role is `"user"`, replaces the title with
`content[:50] + ("..." if len(content) > 50 else "")`.  Timestamps and
message ids are produced externally (`datetime.now`, `uuid4`), so the
embedding takes them as parameters. -/

structure ChatRec where
  id : String
  title : String
  createdAt : String
  updatedAt : String
deriving DecidableEq, Repr

structure ChatMessageRec where
  id : String
  chatId : String
  role : String
  content : String
  timestamp : String
deriving DecidableEq, Repr

/-- The two dicts `self._chats` and `self._messages`, as association lists. -/
structure StoreState where
  chats : List (String × ChatRec)
  messages : List (String × List ChatMessageRec)
deriving DecidableEq, Repr

def lookupChats (st : StoreState) (chatId : String) : Option ChatRec :=
  (st.chats.find? fun p => p.1 == chatId).map Prod.snd

def lookupMessages (st : StoreState) (chatId : String) :
    Option (List ChatMessageRec) :=
  (st.messages.find? fun p => p.1 == chatId).map Prod.snd

/-- Replace the value stored under a key of an association list (dict item
assignment for a present key). -/
def setAssoc {α : Type} : List (String × α) → String → α → List (String × α)
  | [], _, _ => []
  | p :: ps, key, v =>
      if p.1 == key then (key, v) :: ps else p :: setAssoc ps key v

/-- The new title computed on line 145:
`content[:50] + ("..." if len(content) > 50 else "")`. -/
def truncatedTitle (content : String) : String :=
  content.take 50 ++ (if 50 < content.length then "..." else "")

/-- Model of `add_message(chat_id, role, content)`: `Except` models the `ValueError`
for an unknown chat; `now` and `msgId` stand for the generated timestamp and
uuid. -/
def addMessage (st : StoreState) (chatId role content msgId now : String) :
    Except String (ChatMessageRec × StoreState) :=
  match lookupMessages st chatId with
  | none => .error ("Chat " ++ chatId ++ " not found")
  | some msgs =>
      let msg : ChatMessageRec :=
        { id := msgId, chatId := chatId, role := role, content := content
          timestamp := now }
      let messages' := setAssoc st.messages chatId (msgs ++ [msg])
      match lookupChats st chatId with
      | none => .ok (msg, { chats := st.chats, messages := messages' })
      | some chat =>
          let chat' : ChatRec :=
            { chat with
                updatedAt := msg.timestamp
                title :=
                  if chat.title = "New Chat" ∧ role = "user" then
                    truncatedTitle content
                  else chat.title }
          .ok (msg, { chats := setAssoc st.chats chatId chat'
                      messages := messages' })

lemma find?_setAssoc {α : Type} (l : List (String × α)) (key : String) (v : α)
    (h : (l.find? fun p => p.1 == key).isSome) :
    ((setAssoc l key v).find? fun p => p.1 == key) = some (key, v) := by
  induction l with
  | nil => simp [List.find?] at h
  | cons p ps ih =>
      cases hp : (p.1 == key) with
      | true => simp [setAssoc, hp, List.find?_cons]
      | false =>
          have h' : (ps.find? fun q => q.1 == key).isSome := by
            simpa [List.find?_cons, hp] using h
          simpa [setAssoc, hp, List.find?_cons] using ih h'

/-- C10: For every chat whose title is `"New Chat"`, an `add_message` with
role `"user"` sets the title to the first 50 characters of the content, with
`"..."` appended exactly when the content is longer than 50 characters; an
`add_message` with any other role, or on a chat whose title is not
`"New Chat"`, leaves the title unchanged (only `updated_at` moves). -/
theorem add_message_retitles_new_chat (st : StoreState)
    (chatId role content msgId now : String) (msgs : List ChatMessageRec)
    (chat : ChatRec)
    (hm : lookupMessages st chatId = some msgs)
    (hc : lookupChats st chatId = some chat) :
    ∃ st' : StoreState,
      addMessage st chatId role content msgId now =
        .ok ({ id := msgId, chatId := chatId, role := role, content := content
               timestamp := now }, st') ∧
      lookupChats st' chatId = some
        { chat with
            updatedAt := now
            title :=
              if chat.title = "New Chat" ∧ role = "user" then
                content.take 50 ++ (if 50 < content.length then "..." else "")
              else chat.title } := by
  have hfind : (st.chats.find? fun p => p.1 == chatId).isSome := by
    unfold lookupChats at hc
    cases hf : st.chats.find? fun p => p.1 == chatId with
    | none => rw [hf] at hc; simp at hc
    | some p => rfl
  refine ⟨{ chats := setAssoc st.chats chatId
              { chat with
                  updatedAt := now
                  title :=
                    if chat.title = "New Chat" ∧ role = "user" then
                      truncatedTitle content
                    else chat.title }
            messages := setAssoc st.messages chatId
              (msgs ++ [{ id := msgId, chatId := chatId, role := role
                          content := content, timestamp := now }]) }, ?_, ?_⟩
  · unfold addMessage
    rw [hm, hc]
  · show (Option.map Prod.snd _) = _
    rw [find?_setAssoc st.chats chatId _ hfind]
    simp [truncatedTitle]

set_option maxRecDepth 4000 in
/-- Witness for C10: a concrete store with one chat titled `"New Chat"` and a
user message of more than 50 characters. -/
theorem add_message_retitles_new_chat_witness :
    (lookupMessages
        { chats := [("c1", { id := "c1", title := "New Chat"
                             createdAt := "t0", updatedAt := "t0" })]
          messages := [("c1", [])] } "c1" = some []) ∧
    (∃ st' : StoreState,
      addMessage
          { chats := [("c1", { id := "c1", title := "New Chat"
                               createdAt := "t0", updatedAt := "t0" })]
            messages := [("c1", [])] }
          "c1" "user"
          "This message content is definitely longer than fifty characters total."
          "m1" "t1" =
        .ok ({ id := "m1", chatId := "c1", role := "user"
               content := "This message content is definitely longer than fifty characters total."
               timestamp := "t1" }, st') ∧
      lookupChats st' "c1" = some
        { id := "c1"
          title := "This message content is definitely longer than fif" ++ "..."
          createdAt := "t0", updatedAt := "t1" }) := by
  constructor
  · rfl
  · have h := add_message_retitles_new_chat
      { chats := [("c1", { id := "c1", title := "New Chat"
                           createdAt := "t0", updatedAt := "t0" })]
        messages := [("c1", [])] }
      "c1" "user"
      "This message content is definitely longer than fifty characters total."
      "m1" "t1" []
      { id := "c1", title := "New Chat", createdAt := "t0", updatedAt := "t0" }
      rfl rfl
    obtain ⟨st', h1, h2⟩ := h
    refine ⟨st', h1, ?_⟩
    rw [h2]
    decide

end AtBackend
